import Mathlib

/-!
Shallow embedding of `src/app.py`, a TV-guide movie browser: the title
normalizer `clean_title`, the `parse_time` timestamp parser, the EPG
programme filter of `load_movies_from_epg`, the TMDB metadata resolver
`search_tmdb` with its SQLite-backed cache (`init_db`, `get_cached_movie`,
`cache_movie`), and the rating sort of the presentation layer.  Machine
state that the script keeps implicitly (the SQLite table, the HTTP
responses) is passed explicitly: the cache is the list of table rows and
the external service is an oracle supplying the responses of the requests
the code would issue.  Theorems below settle the specification's claims.
-/

namespace TvGuide

/-- ASCII whitespace, modelling what Python `str.strip()` removes
(`app.py` line 54; the rare non-ASCII Unicode whitespace is not modelled). -/
def isPySpace (c : Char) : Bool :=
  c = ' ' || c = '\t' || c = '\n' || c = '\r' || c = '\x0b' || c = '\x0c'

/-- Python `str.lower()` on the character list, modelled for ASCII letters
(used as `title.lower()` and `category.text.lower()`). -/
def pyLowerL (l : List Char) : List Char := l.map Char.toLower

/-- Python `str.lower()` on strings. -/
def pyLower (s : String) : String := ⟨pyLowerL s.data⟩

/-- Python substring test `needle in hay` (used for
`"film" in category.text.lower()`, `app.py` line 120). -/
def containsSub (needle : List Char) : List Char → Bool
  | [] => needle.isPrefixOf []
  | c :: t => needle.isPrefixOf (c :: t) || containsSub needle t

/-- Scanner for the Python non-greedy match `\(.*?\)` starting right after a
`(`: returns the text after the first `)` provided no newline intervenes
(`.` does not match a newline), and `none` when the match fails. -/
def scanClose : List Char → Option (List Char)
  | [] => none
  | c :: t => if c = ')' then some t else if c = '\n' then none else scanClose t

/-- One pass of `re.sub(r"\(.*?\)", "", title)` (`app.py` line 52): scan left
to right; at a `(` whose non-greedy close succeeds, drop through the `)` and
resume after it, otherwise keep the character.  Fuel-indexed so that the
recursion is structural; the fuel `l.length` always suffices because every
step consumes at least one character. -/
def removeParensF : Nat → List Char → List Char
  | 0, l => l
  | _ + 1, [] => []
  | f + 1, c :: rest =>
    if c = '(' then
      match scanClose rest with
      | some rest' => removeParensF f rest'
      | none => c :: removeParensF f rest
    else c :: removeParensF f rest

/-- `re.sub(r"\(.*?\)", "", title)`. -/
def removeParens (l : List Char) : List Char := removeParensF l.length l

/-- Case-insensitive literal match (`re.IGNORECASE`), pattern given in
lowercase; on success returns the unconsumed rest. -/
def matchCI : List Char → List Char → Option (List Char)
  | [], l => some l
  | _ :: _, [] => none
  | p :: ps, c :: cs => if c.toLower = p then matchCI ps cs else none

/-- Match `\d{4}` (exactly four decimal digits); returns the rest. -/
def matchDigits4 : List Char → Option (List Char)
  | a :: b :: c :: d :: t =>
    if a.isDigit && b.isDigit && c.isDigit && d.isDigit then some t else none
  | _ => none

/-- One pass of `re.sub(r"HD|Premiera|TV|\d{4}", "", title, flags=re.IGNORECASE)`
(`app.py` line 53): left-to-right scan; at each position the first alternative
that matches is removed and scanning resumes after it (the alternatives start
with distinct characters, so at most one can match at a position).
Fuel-indexed as in `removeParensF`. -/
def removeMarkersF : Nat → List Char → List Char
  | 0, l => l
  | _ + 1, [] => []
  | f + 1, c :: rest =>
    match matchCI ['h', 'd'] (c :: rest) with
    | some t => removeMarkersF f t
    | none =>
      match matchCI ['p', 'r', 'e', 'm', 'i', 'e', 'r', 'a'] (c :: rest) with
      | some t => removeMarkersF f t
      | none =>
        match matchCI ['t', 'v'] (c :: rest) with
        | some t => removeMarkersF f t
        | none =>
          match matchDigits4 (c :: rest) with
          | some t => removeMarkersF f t
          | none => c :: removeMarkersF f rest

/-- `re.sub(r"HD|Premiera|TV|\d{4}", "", title, flags=re.IGNORECASE)`. -/
def removeMarkers (l : List Char) : List Char := removeMarkersF l.length l

/-- Python `str.strip()` (ASCII whitespace): drop from the front, then from
the back. -/
def pyStrip (l : List Char) : List Char :=
  (l.dropWhile isPySpace).rdropWhile isPySpace

/-- `clean_title` (`app.py` lines 51-54): remove parenthesized substrings,
then the quality/premiere/year markers, then strip. -/
def clean_title (s : String) : String :=
  ⟨pyStrip (removeMarkers (removeParens s.data))⟩

/-- A naive Python `datetime` (the script never attaches a timezone). -/
structure PyDateTime where
  year : Nat
  month : Nat
  day : Nat
  hour : Nat
  minute : Nat
  second : Nat
  microsecond : Nat
deriving DecidableEq

/-- Python `datetime` `<`: lexicographic on all seven fields. -/
def PyDateTime.ltB (a b : PyDateTime) : Bool :=
  if a.year ≠ b.year then decide (a.year < b.year)
  else if a.month ≠ b.month then decide (a.month < b.month)
  else if a.day ≠ b.day then decide (a.day < b.day)
  else if a.hour ≠ b.hour then decide (a.hour < b.hour)
  else if a.minute ≠ b.minute then decide (a.minute < b.minute)
  else if a.second ≠ b.second then decide (a.second < b.second)
  else decide (a.microsecond < b.microsecond)

/-- The `start.date() != today` comparison: date part only. -/
def dateEqB (a b : PyDateTime) : Bool :=
  decide (a.year = b.year) && decide (a.month = b.month) && decide (a.day = b.day)

/-- `datetime.now().replace(hour=start_hour, minute=0, second=0)`
(`app.py` line 109).  Note that `microsecond` is NOT among the replaced
fields: the result keeps the wall clock's microsecond. -/
def replaceHMS (now : PyDateTime) (h : Nat) : PyDateTime :=
  ⟨now.year, now.month, now.day, h, 0, 0, now.microsecond⟩

/-- Decimal value of a digit list. -/
def natOfDigits (l : List Char) : Nat :=
  l.foldl (fun n c => n * 10 + (c.toNat - 48)) 0

def isLeapYear (y : Nat) : Bool := (y % 4 = 0 && y % 100 ≠ 0) || y % 400 = 0

def daysInMonth (y m : Nat) : Nat :=
  if m = 2 then (if isLeapYear y then 29 else 28)
  else if m = 4 || m = 6 || m = 9 || m = 11 then 30
  else 31

/-- `parse_time` (`app.py` lines 101-102):
`datetime.strptime(t[:14], "%Y%m%d%H%M%S")`, modelled for the fixed-width
14-digit XMLTV timestamp (strptime's tolerance for shorter numeric fields is
not modelled); a `ValueError` is `none`. -/
def parse_time (t : String) : Option PyDateTime :=
  let cs := t.data.take 14
  if cs.length = 14 && cs.all Char.isDigit then
    let y := natOfDigits (cs.take 4)
    let mo := natOfDigits ((cs.drop 4).take 2)
    let d := natOfDigits ((cs.drop 6).take 2)
    let h := natOfDigits ((cs.drop 8).take 2)
    let mi := natOfDigits ((cs.drop 10).take 2)
    let s := natOfDigits ((cs.drop 12).take 2)
    if 1 ≤ y && 1 ≤ mo && mo ≤ 12 && 1 ≤ d && d ≤ daysInMonth y mo
        && h ≤ 23 && mi ≤ 59 && s ≤ 59 then
      some ⟨y, mo, d, h, mi, s, 0⟩
    else none
  else none

/-- Zero-padded two-digit rendering used by `strftime`. -/
def pad2 (n : Nat) : String := if n < 10 then "0" ++ toString n else toString n

/-- `start.strftime("%H:%M")` (`app.py` line 136). -/
def fmtHM (dt : PyDateTime) : String := pad2 dt.hour ++ ":" ++ pad2 dt.minute

/-- The record `get_cached_movie` and `search_tmdb` return (the
`rating`/`poster`/`imdb_id` dictionary). -/
structure MovieRec where
  rating : ℚ
  poster : Option String
  imdb_id : Option String
deriving DecidableEq

/-- The SQLite table `movies` (`title TEXT PRIMARY KEY, rating REAL,
poster TEXT, imdb_id TEXT`) as its list of rows. -/
abbrev Cache := List (String × MovieRec)

/-- `init_db` (`app.py` lines 12-24): idempotent schema creation; a fresh
database is the empty table. -/
def init_db : Cache := []

/-- `get_cached_movie` (`app.py` lines 26-39): `SELECT rating, poster,
imdb_id FROM movies WHERE title=?`; `None` on a missing row. -/
def get_cached_movie (title : String) (c : Cache) : Option MovieRec :=
  (c.find? (fun row => row.1 == title)).map Prod.snd

/-- `cache_movie` (`app.py` lines 41-49): `INSERT OR REPLACE` deletes any
row with the same primary key and inserts the new row. -/
def cache_movie (title : String) (rating : ℚ) (poster imdb_id : Option String)
    (c : Cache) : Cache :=
  c.filter (fun row => row.1 != title) ++ [(title, ⟨rating, poster, imdb_id⟩)]

/-- One TMDB search result, restricted to the fields the code reads from
`data["results"][0]`. -/
structure TmdbResult where
  vote_average : Option ℚ
  poster_path : Option String
  id : Option Nat
deriving DecidableEq

/-- Oracle for the external TMDB service during one `search_tmdb` call: the
status and parsed `results` of the search response, and the `imdb_id` field
of the `/movie/<id>/external_ids` response for each id. -/
structure TmdbService where
  searchStatus : Nat
  searchResults : List TmdbResult
  extImdb : Nat → Option String

/-- The external HTTP requests `search_tmdb` can issue. -/
inductive TmdbReq
  | search (query : String)
  | externalIds (movieId : Nat)
deriving DecidableEq

/-- `app.py` lines 78-82: `poster_path = movie.get("poster_path")`, then
`poster` stays `None` unless `poster_path` is truthy (not `None`, not the
empty string), in which case the image URL is prefixed. -/
def posterOf (movie : TmdbResult) : Option String :=
  match movie.poster_path with
  | some p => if p = "" then none
              else some ("https://image.tmdb.org/t/p/w500" ++ p)
  | none => none

/-- `app.py` lines 84-91: `imdb_id` stays `None` unless `movie.get("id")`
is truthy (not `None`, not `0`); then the `external_ids` endpoint is asked
for its `imdb_id` field. -/
def imdbOf (svc : TmdbService) (movie : TmdbResult) : Option String :=
  match movie.id with
  | some movieId => if movieId ≠ 0 then svc.extImdb movieId else none
  | none => none

/-- The HTTP requests of a cache-miss `search_tmdb` call that got a `200`
search response with at least one result: the search itself, plus the
`external_ids` lookup when the first result has a truthy id. -/
def reqsOf (title : String) (movie : TmdbResult) :
    List TmdbReq :=
  match movie.id with
  | some movieId =>
    if movieId ≠ 0 then [TmdbReq.search title, TmdbReq.externalIds movieId]
    else [TmdbReq.search title]
  | none => [TmdbReq.search title]

/-- `search_tmdb` (`app.py` lines 56-99) with the cache passed explicitly
and the HTTP responses supplied by the oracle; the third component is the
list of HTTP requests issued.  On a cache miss with a `200` response and a
non-empty results list, the first result is used: its rating defaults to
`0` when `vote_average` is absent (`movie.get("vote_average", 0)`), the
poster and imdb id are as in `posterOf`/`imdbOf`, and the composite record
is cached under the lowercased title before being returned. -/
def search_tmdb (svc : TmdbService) (title : String) (c : Cache) :
    Option MovieRec × Cache × List TmdbReq :=
  match get_cached_movie (pyLower title) c with
  | some cached => (some cached, c, [])
  | none =>
    if svc.searchStatus ≠ 200 then (none, c, [TmdbReq.search title])
    else
      match svc.searchResults with
      | [] => (none, c, [TmdbReq.search title])
      | movie :: _ =>
        (some ⟨movie.vote_average.getD 0, posterOf movie, imdbOf svc movie⟩,
         cache_movie (pyLower title) (movie.vote_average.getD 0)
           (posterOf movie) (imdbOf svc movie) c,
         reqsOf title movie)

/-- An XML child element with its text (`.text` is `None` for an empty
element). -/
structure Element where
  text : Option String
deriving DecidableEq

/-- A `programme` element of the EPG document: `title`/`category` children,
`start`/`channel` attributes. -/
structure Programme where
  title : Option Element
  category : Option Element
  start : Option String
  channel : Option String
deriving DecidableEq

/-- Python exceptions the loop of `load_movies_from_epg` can raise. -/
inductive PyErr
  | attributeError
  | keyError
  | valueError
  | typeError
deriving DecidableEq

/-- One entry of the `movies` list built by `load_movies_from_epg`
(`app.py` lines 134-141). -/
structure Movie where
  title : String
  time : String
  channel : Option String
  rating : ℚ
  poster : Option String
  imdb_id : Option String
deriving DecidableEq

/-- Result of one iteration of the `for programme in ...` loop body. -/
inductive StepRes (σ : Type) where
  | skip (s : σ)
  | err (e : PyErr)
  | keep (m : Movie) (s : σ)

/-- The body of the loop in `load_movies_from_epg` (`app.py` lines 113-141)
for one programme.  `R` is the metadata resolver (`search_tmdb` under a
fixed service oracle, see `tmdbResolver`) with its state threaded through.
The checks happen in source order: missing title (skip), missing category
(skip, by `or` short-circuit), category text `None` (AttributeError), no
"film" in the lowercased category (skip), missing `start` attribute
(KeyError), unparsable start (ValueError), wrong date or too early (skip),
title text `None` (TypeError in `re.sub`), resolver miss (skip). -/
def processProgramme {σ : Type} (now evening : PyDateTime)
    (R : String → σ → Option MovieRec × σ) (p : Programme) (s : σ) :
    StepRes σ :=
  match p.title with
  | none => .skip s
  | some titleElem =>
    match p.category with
    | none => .skip s
    | some cat =>
      match cat.text with
      | none => .err .attributeError
      | some ctext =>
        if !containsSub ['f', 'i', 'l', 'm'] (pyLowerL ctext.data) then .skip s
        else
          match p.start with
          | none => .err .keyError
          | some ss =>
            match parse_time ss with
            | none => .err .valueError
            | some dt =>
              if !dateEqB dt now || dt.ltB evening then .skip s
              else
                match titleElem.text with
                | none => .err .typeError
                | some raw =>
                  match R (clean_title raw) s with
                  | (none, s') => .skip s'
                  | (some tm, s') =>
                    .keep ⟨clean_title raw, fmtHM dt, p.channel,
                           tm.rating, tm.poster, tm.imdb_id⟩ s'

/-- The loop of `load_movies_from_epg`: programmes processed in document
order, kept movies accumulated in encounter order, resolver state threaded;
an exception aborts the whole call. -/
def loadAux {σ : Type} (now evening : PyDateTime)
    (R : String → σ → Option MovieRec × σ) :
    List Programme → σ → Except PyErr (List Movie)
  | [], _ => .ok []
  | p :: ps, s =>
    match processProgramme now evening R p s with
    | .skip s' => loadAux now evening R ps s'
    | .err e => .error e
    | .keep m s' => (loadAux now evening R ps s').map (fun ms => m :: ms)

/-- Stable insertion of `m` into a list sorted by rating descending: `m`
goes after every element whose rating is `≥` its own, so that elements that
were earlier keep priority on ties. -/
def insertDesc (m : Movie) : List Movie → List Movie
  | [] => [m]
  | x :: xs => if m.rating < x.rating then x :: insertDesc m xs else m :: x :: xs

/-- `sorted(movies, key=lambda x: x["rating"], reverse=True)` (`app.py`
line 143).  Python's sort is stable, and a stable sort under a fixed
comparison is unique, so stable insertion sort models it exactly. -/
def sortByRatingDesc : List Movie → List Movie
  | [] => []
  | m :: rest => insertDesc m (sortByRatingDesc rest)

/-- `load_movies_from_epg` (`app.py` lines 104-143), with the two
`datetime.now()` calls of lines 108-109 modelled as the single instant
`now`, the fetched EPG document given as its list of `programme` elements,
and the metadata resolver abstracted as `R`. -/
def load_movies_from_epg {σ : Type} (now : PyDateTime) (start_hour : Nat)
    (R : String → σ → Option MovieRec × σ) (s : σ) (ps : List Programme) :
    Except PyErr (List Movie) :=
  (loadAux now (replaceHMS now start_hour) R ps s).map sortByRatingDesc

/-- `search_tmdb` as the resolver `load_movies_from_epg` actually uses. -/
def tmdbResolver (svc : TmdbService) : String → Cache → Option MovieRec × Cache :=
  fun title c =>
    match search_tmdb svc title c with
    | (res, c', _) => (res, c')

/-- The filter of `main` (`app.py` line 159):
`[m for m in movies if m["rating"] >= min_rating]`. -/
def minRatingFilter (minRating : ℚ) (ms : List Movie) : List Movie :=
  ms.filter (fun m => decide (minRating ≤ m.rating))

/-- A cache operation: `cache_movie` writes, `get_cached_movie` only reads. -/
inductive CacheOp
  | put (title : String) (rating : ℚ) (poster imdb_id : Option String)
  | get (title : String)

def applyOp (op : CacheOp) (c : Cache) : Cache :=
  match op with
  | .put t r po im => cache_movie t r po im c
  | .get _ => c

def applyOps (ops : List CacheOp) (c : Cache) : Cache :=
  ops.foldl (fun c op => applyOp op c) c

/-! ## Helper lemmas -/

/-- The head of a non-empty `dropWhile` result fails the predicate. -/
theorem dropWhile_head_false {α : Type} {p : α → Bool} :
    ∀ {l c t}, List.dropWhile p l = c :: t → p c = false := by
  intro l
  induction l with
  | nil => intro c t h; simp [List.dropWhile] at h
  | cons a l ih =>
    intro c t h
    rw [List.dropWhile_cons] at h
    by_cases hp : p a = true
    · rw [if_pos hp] at h; exact ih h
    · rw [if_neg hp] at h
      injection h with h1 _
      subst h1
      simpa using hp

/-- Stripping is idempotent: the front drop leaves a head that fails the
predicate and the back drop leaves it in place, so a second strip is the
identity. -/
theorem pyStrip_idem (l : List Char) : pyStrip (pyStrip l) = pyStrip l := by
  unfold pyStrip
  have h1 : List.dropWhile isPySpace
      ((l.dropWhile isPySpace).rdropWhile isPySpace)
      = (l.dropWhile isPySpace).rdropWhile isPySpace := by
    obtain ⟨t, ht⟩ := List.rdropWhile_prefix isPySpace (l.dropWhile isPySpace)
    rcases hB : (l.dropWhile isPySpace).rdropWhile isPySpace with _ | ⟨c, B⟩
    · simp
    · rw [hB] at ht
      have hA : l.dropWhile isPySpace = c :: (B ++ t) := by
        rw [← ht]; simp
      have hc : isPySpace c = false := dropWhile_head_false hA
      simp [List.dropWhile_cons, hc]
  rw [h1, List.rdropWhile_idempotent]

/-! ## Claims -/

/-- C2 (counterexample): `clean_title` is not idempotent.  On `"HHDD"` the
marker pass removes the middle overlapping `HD`, leaving `"HD"`, which a
second application removes entirely. -/
theorem clean_title_not_idempotent_cex :
    clean_title "HHDD" = "HD" ∧ clean_title (clean_title "HHDD") = "" ∧
    clean_title (clean_title "HHDD") ≠ clean_title "HHDD" := by decide

/-- C2 (amended): `clean_title` is idempotent on every input whose cleaned
title is a fixed point of the parenthetical-removal and marker-removal
substitutions (stripping is always idempotent); in general idempotence
fails, see the counterexample. -/
theorem clean_title_idem_of_fixed (s : String)
    (h1 : removeParens (clean_title s).data = (clean_title s).data)
    (h2 : removeMarkers (clean_title s).data = (clean_title s).data) :
    clean_title (clean_title s) = clean_title s := by
  have hd : (clean_title s).data = pyStrip (removeMarkers (removeParens s.data)) := rfl
  show (⟨pyStrip (removeMarkers (removeParens (clean_title s).data))⟩ : String)
      = clean_title s
  rw [h1, h2, hd, pyStrip_idem]
  rfl

/-- Witness for the amended C2 at the concrete title `"Heat (1995)"`. -/
theorem clean_title_idem_witness :
    (removeParens (clean_title "Heat (1995)").data = (clean_title "Heat (1995)").data ∧
     removeMarkers (clean_title "Heat (1995)").data = (clean_title "Heat (1995)").data) ∧
    clean_title (clean_title "Heat (1995)") = clean_title "Heat (1995)" :=
  ⟨⟨by decide, by decide⟩,
    clean_title_idem_of_fixed "Heat (1995)" (by decide) (by decide)⟩

/-- C8: `clean_title` maps `"Skazani na Shawshank (1994) HD"` to exactly
`"Skazani na Shawshank"`. -/
theorem clean_title_shawshank_example :
    clean_title "Skazani na Shawshank (1994) HD" = "Skazani na Shawshank" := by
  decide

/-- C3: when the lowercased title is already cached, `search_tmdb` returns
the identical cached record, issues no HTTP request, and leaves the cache
unchanged. -/
theorem search_tmdb_cache_hit (svc : TmdbService) (title : String) (c : Cache)
    (r : MovieRec) (h : get_cached_movie (pyLower title) c = some r) :
    search_tmdb svc title c = (some r, c, []) := by
  unfold search_tmdb
  rw [h]

/-- Witness for C3: a concrete cached title. -/
theorem search_tmdb_cache_hit_witness :
    get_cached_movie (pyLower "Heat") [("heat", ⟨8, none, some "tt0113277"⟩)]
      = some ⟨8, none, some "tt0113277"⟩ ∧
    search_tmdb ⟨404, [], fun _ => none⟩ "Heat" [("heat", ⟨8, none, some "tt0113277"⟩)]
      = (some ⟨8, none, some "tt0113277"⟩, [("heat", ⟨8, none, some "tt0113277"⟩)], []) :=
  ⟨rfl, search_tmdb_cache_hit ⟨404, [], fun _ => none⟩ "Heat"
    [("heat", ⟨8, none, some "tt0113277"⟩)] ⟨8, none, some "tt0113277"⟩ rfl⟩

/-- C6: on a cache miss, a non-200 search response or an empty results list
makes `search_tmdb` return `none` after the single search request, writing
nothing to the cache. -/
theorem search_tmdb_failure_none (svc : TmdbService) (title : String) (c : Cache)
    (hmiss : get_cached_movie (pyLower title) c = none)
    (hfail : svc.searchStatus ≠ 200 ∨ svc.searchResults = []) :
    search_tmdb svc title c = (none, c, [TmdbReq.search title]) := by
  unfold search_tmdb
  rw [hmiss]
  rcases hfail with hst | hres
  · rw [if_pos hst]
  · by_cases hs : svc.searchStatus ≠ 200
    · rw [if_pos hs]
    · rw [if_neg hs, hres]

/-- Looking up a key right after `cache_movie` wrote it returns exactly the
written record (`INSERT OR REPLACE`: last write wins). -/
theorem get_cache_movie_self (t : String) (r : ℚ) (po im : Option String)
    (c : Cache) : get_cached_movie t (cache_movie t r po im c) = some ⟨r, po, im⟩ := by
  unfold get_cached_movie cache_movie
  induction c with
  | nil => simp
  | cons row rows ih =>
    by_cases hr : row.1 = t
    · rw [List.filter_cons]
      have hb : (row.1 != t) = false := by simp [hr]
      rw [hb]
      simp only [Bool.false_eq_true, if_false]
      exact ih
    · rw [List.filter_cons]
      have hb : (row.1 != t) = true := by simp [hr]
      rw [hb, if_pos rfl, List.cons_append, List.find?_cons_of_neg]
      · exact ih
      · simp [hr]

/-- `cache_movie` preserves distinctness of the table's primary keys. -/
theorem nodup_keys_cache_movie (t : String) (r : ℚ) (po im : Option String)
    {c : Cache} (h : (c.map Prod.fst).Nodup) :
    ((cache_movie t r po im c).map Prod.fst).Nodup := by
  unfold cache_movie
  rw [List.map_append]
  refine List.Nodup.append ?_ (by simp) ?_
  · exact List.Nodup.sublist
      (List.Sublist.map Prod.fst (List.filter_sublist c)) h
  · intro a ha hb
    simp only [List.map_cons, List.map_nil, List.mem_singleton] at hb
    subst hb
    simp only [List.mem_map] at ha
    obtain ⟨row, hrow, hfst⟩ := ha
    rw [List.mem_filter] at hrow
    have hne := hrow.2
    simp only [bne_iff_ne, ne_eq] at hne
    exact hne hfst

/-- Any sequence of cache operations preserves key distinctness. -/
theorem nodup_keys_applyOps : ∀ (ops : List CacheOp) (c : Cache),
    (c.map Prod.fst).Nodup → ((applyOps ops c).map Prod.fst).Nodup := by
  intro ops
  induction ops with
  | nil => intro c h; exact h
  | cons op ops ih =>
    intro c h
    show ((applyOps ops (applyOp op c)).map Prod.fst).Nodup
    apply ih
    cases op with
    | put t r po im => exact nodup_keys_cache_movie t r po im h
    | get t => exact h

/-- C7: starting from the freshly initialised store, any sequence of
`cache_movie`/`get_cached_movie` operations leaves at most one row per key;
`cache_movie` upserts, so a read of the key just written returns the new
record; and every cache write `search_tmdb` performs uses the lowercased
form of the title it was given as the key. -/
theorem cache_invariants :
    (∀ ops : List CacheOp, ((applyOps ops init_db).map Prod.fst).Nodup) ∧
    (∀ (t : String) (r : ℚ) (po im : Option String) (c : Cache),
      get_cached_movie t (cache_movie t r po im c) = some ⟨r, po, im⟩) ∧
    (∀ (svc : TmdbService) (t : String) (c : Cache),
      (search_tmdb svc t c).2.1 = c ∨
      ∃ r po im, (search_tmdb svc t c).2.1 = cache_movie (pyLower t) r po im c) := by
  refine ⟨fun ops => nodup_keys_applyOps ops init_db (by simp [init_db]),
    get_cache_movie_self, ?_⟩
  intro svc t c
  rcases hg : get_cached_movie (pyLower t) c with _ | r
  · by_cases hs : svc.searchStatus ≠ 200
    · left; simp [search_tmdb, hg, hs]
    · rcases hres : svc.searchResults with _ | ⟨movie, rest⟩
      · left; simp [search_tmdb, hg, hs, hres]
      · right
        refine ⟨movie.vote_average.getD 0, posterOf movie, imdbOf svc movie, ?_⟩
        simp [search_tmdb, hg, hs, hres]
  · left; simp [search_tmdb, hg]

/-- C9: a programme with a title element and a category element whose text
is absent makes the whole `load_movies_from_epg` call raise (the category
check dereferences `category.text` without a `None` check), rather than
skipping the entry. -/
theorem category_text_none_aborts {σ : Type} (now : PyDateTime) (sh : Nat)
    (R : String → σ → Option MovieRec × σ) (s : σ) (p : Programme)
    (rest : List Programme) (te : Element)
    (ht : p.title = some te) (hc : p.category = some ⟨none⟩) :
    load_movies_from_epg now sh R s (p :: rest) = .error .attributeError := by
  have hp : processProgramme now (replaceHMS now sh) R p s = .err .attributeError := by
    unfold processProgramme
    rw [ht, hc]
  unfold load_movies_from_epg loadAux
  rw [hp]
  rfl

/-- Witness for C9: a concrete programme with an empty category element. -/
theorem category_text_none_aborts_witness :
    (⟨some ⟨some "Film"⟩, some ⟨none⟩, some "20251012200000 +0200", none⟩ :
      Programme).title = some ⟨some "Film"⟩ ∧
    (⟨some ⟨some "Film"⟩, some ⟨none⟩, some "20251012200000 +0200", none⟩ :
      Programme).category = some ⟨none⟩ ∧
    load_movies_from_epg ⟨2025, 10, 12, 9, 0, 0, 0⟩ 18
      (fun (_ : String) (s : Unit) => ((none : Option MovieRec), s)) ()
      [⟨some ⟨some "Film"⟩, some ⟨none⟩, some "20251012200000 +0200", none⟩]
      = .error .attributeError :=
  ⟨rfl, rfl,
    category_text_none_aborts ⟨2025, 10, 12, 9, 0, 0, 0⟩ 18
      (fun _ s => (none, s)) ()
      ⟨some ⟨some "Film"⟩, some ⟨none⟩, some "20251012200000 +0200", none⟩
      [] ⟨some "Film"⟩ rfl rfl⟩

/-- C10: on a cache miss with a `200` search response whose first result
has no `vote_average` field, `search_tmdb` returns a record with rating `0`
(not an absence signal) and caches that record under the lowercased title. -/
theorem missing_vote_average_rating_zero (svc : TmdbService) (title : String)
    (c : Cache) (movie : TmdbResult) (rest : List TmdbResult)
    (hmiss : get_cached_movie (pyLower title) c = none)
    (h200 : svc.searchStatus = 200)
    (hres : svc.searchResults = movie :: rest)
    (hvote : movie.vote_average = none) :
    ∃ po im,
      (search_tmdb svc title c).1 = some ⟨0, po, im⟩ ∧
      (search_tmdb svc title c).2.1 = cache_movie (pyLower title) 0 po im c ∧
      get_cached_movie (pyLower title) (search_tmdb svc title c).2.1
        = some ⟨0, po, im⟩ := by
  have hsearch : search_tmdb svc title c =
      (some ⟨0, posterOf movie, imdbOf svc movie⟩,
       cache_movie (pyLower title) 0 (posterOf movie) (imdbOf svc movie) c,
       reqsOf title movie) := by
    simp [search_tmdb, hmiss, h200, hres, hvote]
  refine ⟨posterOf movie, imdbOf svc movie, ?_, ?_, ?_⟩
  · rw [hsearch]
  · rw [hsearch]
  · rw [hsearch]
    exact get_cache_movie_self (pyLower title) 0 (posterOf movie)
      (imdbOf svc movie) c

/-- Witness for C10: concrete service whose first result lacks a rating. -/
theorem missing_vote_average_rating_zero_witness :
    get_cached_movie (pyLower "Heat") init_db = none ∧
    (⟨200, [⟨none, some "/x.jpg", some 42⟩], fun _ => some "tt0000042"⟩ :
      TmdbService).searchStatus = 200 ∧
    (⟨200, [⟨none, some "/x.jpg", some 42⟩], fun _ => some "tt0000042"⟩ :
      TmdbService).searchResults = [⟨none, some "/x.jpg", some 42⟩] ∧
    (⟨none, some "/x.jpg", some 42⟩ : TmdbResult).vote_average = none ∧
    (∃ po im,
      (search_tmdb ⟨200, [⟨none, some "/x.jpg", some 42⟩], fun _ => some "tt0000042"⟩
        "Heat" init_db).1 = some ⟨0, po, im⟩ ∧
      (search_tmdb ⟨200, [⟨none, some "/x.jpg", some 42⟩], fun _ => some "tt0000042"⟩
        "Heat" init_db).2.1 = cache_movie (pyLower "Heat") 0 po im init_db ∧
      get_cached_movie (pyLower "Heat")
        (search_tmdb ⟨200, [⟨none, some "/x.jpg", some 42⟩], fun _ => some "tt0000042"⟩
          "Heat" init_db).2.1 = some ⟨0, po, im⟩) :=
  ⟨rfl, rfl, rfl, rfl,
    missing_vote_average_rating_zero
      ⟨200, [⟨none, some "/x.jpg", some 42⟩], fun _ => some "tt0000042"⟩
      "Heat" init_db ⟨none, some "/x.jpg", some 42⟩ [] rfl rfl rfl rfl⟩

/-- Witness for C6: a concrete 404 response on an empty cache. -/
theorem search_tmdb_failure_none_witness :
    get_cached_movie (pyLower "Heat") init_db = none ∧
    ((404 : Nat) ≠ 200 ∨ ([] : List TmdbResult) = []) ∧
    search_tmdb ⟨404, [], fun _ => none⟩ "Heat" init_db
      = (none, init_db, [TmdbReq.search "Heat"]) :=
  ⟨rfl, Or.inl (by decide),
    search_tmdb_failure_none ⟨404, [], fun _ => none⟩ "Heat" init_db rfl
      (Or.inl (by decide))⟩

/-- Membership in a stable descending insertion. -/
theorem mem_insertDesc {m y : Movie} :
    ∀ {l : List Movie}, y ∈ insertDesc m l ↔ y = m ∨ y ∈ l := by
  intro l
  induction l with
  | nil => simp [insertDesc]
  | cons x xs ih =>
    unfold insertDesc
    by_cases h : m.rating < x.rating
    · rw [if_pos h]
      simp only [List.mem_cons, ih]
      tauto
    · rw [if_neg h]
      simp only [List.mem_cons]

/-- Inserting into a rating-descending list keeps it rating-descending. -/
theorem pairwise_insertDesc {m : Movie} :
    ∀ {l : List Movie}, l.Pairwise (fun a b => b.rating ≤ a.rating) →
      (insertDesc m l).Pairwise (fun a b => b.rating ≤ a.rating) := by
  intro l
  induction l with
  | nil => intro _; simp [insertDesc]
  | cons x xs ih =>
    intro h
    rw [List.pairwise_cons] at h
    obtain ⟨hx, hxs⟩ := h
    unfold insertDesc
    by_cases hlt : m.rating < x.rating
    · rw [if_pos hlt, List.pairwise_cons]
      refine ⟨?_, ih hxs⟩
      intro y hy
      rcases mem_insertDesc.mp hy with rfl | hyxs
      · exact le_of_lt hlt
      · exact hx y hyxs
    · rw [if_neg hlt, List.pairwise_cons]
      push_neg at hlt
      refine ⟨?_, List.pairwise_cons.mpr ⟨hx, hxs⟩⟩
      intro y hy
      rcases List.mem_cons.mp hy with rfl | hyxs
      · exact hlt
      · exact le_trans (hx y hyxs) hlt

/-- The sort of `load_movies_from_epg` produces a rating-descending list. -/
theorem pairwise_sortByRatingDesc :
    ∀ l : List Movie,
      (sortByRatingDesc l).Pairwise (fun a b => b.rating ≤ a.rating) := by
  intro l
  induction l with
  | nil => simp [sortByRatingDesc]
  | cons m rest ih => exact pairwise_insertDesc ih

/-- Sorting neither adds nor removes movies. -/
theorem mem_sortByRatingDesc {y : Movie} :
    ∀ {l : List Movie}, y ∈ sortByRatingDesc l ↔ y ∈ l := by
  intro l
  induction l with
  | nil => simp [sortByRatingDesc]
  | cons m rest ih =>
    show y ∈ insertDesc m (sortByRatingDesc rest) ↔ _
    rw [mem_insertDesc, ih, List.mem_cons]

/-- C5: any `ok` result of `load_movies_from_epg` is in non-increasing
rating order, adjacent pair by adjacent pair, and so is what remains of it
after `main`'s minimum-rating filter. -/
theorem load_movies_sorted_desc {σ : Type} (now : PyDateTime) (sh : Nat)
    (R : String → σ → Option MovieRec × σ) (s : σ) (ps : List Programme)
    (ms : List Movie) (minRating : ℚ)
    (hok : load_movies_from_epg now sh R s ps = .ok ms) :
    List.Chain' (fun a b => b.rating ≤ a.rating) ms ∧
    List.Chain' (fun a b => b.rating ≤ a.rating) (minRatingFilter minRating ms) := by
  unfold load_movies_from_epg at hok
  cases hA : loadAux now (replaceHMS now sh) R ps s with
  | error e => rw [hA] at hok; simp [Except.map] at hok
  | ok l =>
    rw [hA] at hok
    simp only [Except.map] at hok
    injection hok with hok
    subst hok
    have hp := pairwise_sortByRatingDesc l
    exact ⟨hp.chain', (hp.filter _).chain'⟩

/-- Resolver used by the C5 witness: rating 8 for title `"B"`, else 5. -/
def ratedR : String → Unit → Option MovieRec × Unit :=
  fun t s => (some ⟨if t = "B" then 8 else 5, none, none⟩, s)

def progA : Programme :=
  ⟨some ⟨some "A"⟩, some ⟨some "film"⟩, some "20251012183000 +0200", some "K1"⟩

def progB : Programme :=
  ⟨some ⟨some "B"⟩, some ⟨some "film"⟩, some "20251012190000 +0200", some "K2"⟩

def movieA : Movie := ⟨"A", "18:30", some "K1", 5, none, none⟩

def movieB : Movie := ⟨"B", "19:00", some "K2", 8, none, none⟩

/-- Witness for C5: a concrete two-programme run sorted to `[B, A]`. -/
theorem load_movies_sorted_desc_witness :
    load_movies_from_epg ⟨2025, 10, 12, 9, 0, 0, 0⟩ 18 ratedR ()
      [progA, progB] = .ok [movieB, movieA] ∧
    (List.Chain' (fun a b => b.rating ≤ a.rating) [movieB, movieA] ∧
     List.Chain' (fun a b => b.rating ≤ a.rating)
       (minRatingFilter 6 [movieB, movieA])) :=
  ⟨rfl, load_movies_sorted_desc ⟨2025, 10, 12, 9, 0, 0, 0⟩ 18 ratedR ()
    [progA, progB] [movieB, movieA] 6 rfl⟩

/-- Inversion of one kept loop iteration: a `keep` outcome pins down every
check the loop body performed. -/
theorem processProgramme_keep {σ : Type} {now evening : PyDateTime}
    {R : String → σ → Option MovieRec × σ} {p : Programme} {s : σ}
    {m : Movie} {s' : σ}
    (h : processProgramme now evening R p s = .keep m s') :
    ∃ te ce ctext ss dt raw tm,
      p.title = some te ∧ p.category = some ce ∧ ce.text = some ctext ∧
      containsSub ['f', 'i', 'l', 'm'] (pyLowerL ctext.data) = true ∧
      p.start = some ss ∧ parse_time ss = some dt ∧
      dateEqB dt now = true ∧ PyDateTime.ltB dt evening = false ∧
      te.text = some raw ∧ R (clean_title raw) s = (some tm, s') ∧
      m = ⟨clean_title raw, fmtHM dt, p.channel,
           tm.rating, tm.poster, tm.imdb_id⟩ := by
  unfold processProgramme at h
  split at h
  · simp at h
  rename_i te hte
  split at h
  · simp at h
  rename_i ce hce
  split at h
  · simp at h
  rename_i ctext hct
  split at h
  · simp at h
  rename_i hfilmneg
  split at h
  · simp at h
  rename_i ss hss
  split at h
  · simp at h
  rename_i dt hdt
  split at h
  · simp at h
  rename_i hcond
  split at h
  · simp at h
  rename_i raw hraw
  split at h
  · simp at h
  rename_i tm s₁ hR
  have hfilm : containsSub ['f', 'i', 'l', 'm'] (pyLowerL ctext.data) = true := by
    simpa using hfilmneg
  have hd : dateEqB dt now = true ∧ dt.ltB evening = false := by
    simpa using hcond
  injection h with hm hs₁
  subst hs₁
  exact ⟨te, ce, ctext, ss, dt, raw, tm, hte, hce, hct, hfilm, hss, hdt,
    hd.1, hd.2, hraw, hR, hm.symm⟩

/-- Every movie an `ok` run returns was kept by some loop iteration over a
programme of the input document. -/
theorem loadAux_mem {σ : Type} {now evening : PyDateTime}
    {R : String → σ → Option MovieRec × σ} :
    ∀ {ps : List Programme} {s : σ} {ms : List Movie},
      loadAux now evening R ps s = .ok ms → ∀ m ∈ ms,
        ∃ p ∈ ps, ∃ s₁ s₂, processProgramme now evening R p s₁ = .keep m s₂ := by
  intro ps
  induction ps with
  | nil =>
    intro s ms h m hm
    unfold loadAux at h
    injection h with h2
    subst h2
    simp at hm
  | cons p ps ih =>
    intro s ms h m hm
    unfold loadAux at h
    split at h
    · rename_i s' hskip
      obtain ⟨p', hp', s₁, s₂, hkeep⟩ := ih h m hm
      exact ⟨p', List.mem_cons_of_mem _ hp', s₁, s₂, hkeep⟩
    · simp at h
    · rename_i m' s' hstep
      cases hl : loadAux now evening R ps s' with
      | error e => rw [hl] at h; simp [Except.map] at h
      | ok l =>
        rw [hl] at h
        simp only [Except.map] at h
        injection h with h2
        subst h2
        rcases List.mem_cons.mp hm with rfl | hml
        · exact ⟨p, List.mem_cons_self p ps, s, s', hstep⟩
        · obtain ⟨p', hp', s₁, s₂, hkeep⟩ := ih hl m hml
          exact ⟨p', List.mem_cons_of_mem _ hp', s₁, s₂, hkeep⟩

/-- With equal dates, not being before the threshold instant forces the
hour to be at least the configured hour (whatever microsecond the wall
clock had). -/
theorem hour_ge_of_not_lt {dt now : PyDateTime} {h : Nat}
    (hd : dateEqB dt now = true)
    (hlt : PyDateTime.ltB dt (replaceHMS now h) = false) : h ≤ dt.hour := by
  unfold dateEqB at hd
  simp only [Bool.and_eq_true, decide_eq_true_eq] at hd
  obtain ⟨⟨hy, hm⟩, hdy⟩ := hd
  unfold PyDateTime.ltB replaceHMS at hlt
  simp only [hy, hm, hdy] at hlt
  simp at hlt
  by_cases hh : dt.hour = h
  · omega
  · simp [hh] at hlt
    omega

/-- C4: every record an `ok` run of `load_movies_from_epg` returns derives
from a programme of the document that has a title element, a category whose
text contains `"film"` case-insensitively, and a parsed start whose date is
the current date and whose hour is at least the configured hour; the record
carries the cleaned title and formatted time of that programme. -/
theorem load_movies_output_passes_filter {σ : Type} (now : PyDateTime)
    (sh : Nat) (R : String → σ → Option MovieRec × σ) (s : σ)
    (ps : List Programme) (ms : List Movie)
    (hok : load_movies_from_epg now sh R s ps = .ok ms) :
    ∀ m ∈ ms, ∃ p ∈ ps, ∃ te ce ctext ss dt raw,
      p.title = some te ∧ p.category = some ce ∧ ce.text = some ctext ∧
      containsSub ['f', 'i', 'l', 'm'] (pyLowerL ctext.data) = true ∧
      p.start = some ss ∧ parse_time ss = some dt ∧
      dateEqB dt now = true ∧ sh ≤ dt.hour ∧
      te.text = some raw ∧ m.title = clean_title raw ∧ m.time = fmtHM dt := by
  intro m hm
  unfold load_movies_from_epg at hok
  cases hA : loadAux now (replaceHMS now sh) R ps s with
  | error e => rw [hA] at hok; simp [Except.map] at hok
  | ok l =>
    rw [hA] at hok
    simp only [Except.map] at hok
    injection hok with hok
    subst hok
    rw [mem_sortByRatingDesc] at hm
    obtain ⟨p, hp, s₁, s₂, hkeep⟩ := loadAux_mem hA m hm
    obtain ⟨te, ce, ctext, ss, dt, raw, tm, hte, hce, hct, hfilm, hss, hdt,
      hdate, hltb, hraw, hR, hmeq⟩ := processProgramme_keep hkeep
    refine ⟨p, hp, te, ce, ctext, ss, dt, raw, hte, hce, hct, hfilm, hss,
      hdt, hdate, hour_ge_of_not_lt hdate hltb, hraw, ?_, ?_⟩
    · rw [hmeq]
    · rw [hmeq]

/-- Constant resolver used by concrete runs: every title resolves with
rating 7 and no poster or imdb id. -/
def constR7 : String → Unit → Option MovieRec × Unit :=
  fun _ s => (some ⟨7, none, none⟩, s)

def progGood : Programme :=
  ⟨some ⟨some "Heat (1995)"⟩, some ⟨some "Film fabularny"⟩,
   some "20251012201500 +0200", some "TVP2"⟩

def movieGood : Movie := ⟨"Heat", "20:15", some "TVP2", 7, none, none⟩

/-- Witness for C4: a concrete passing programme and its output record. -/
theorem load_movies_output_passes_filter_witness :
    load_movies_from_epg ⟨2025, 10, 12, 9, 0, 0, 0⟩ 18 constR7 () [progGood]
      = .ok [movieGood] ∧
    (∀ m ∈ [movieGood], ∃ p ∈ [progGood], ∃ te ce ctext ss dt raw,
      p.title = some te ∧ p.category = some ce ∧ ce.text = some ctext ∧
      containsSub ['f', 'i', 'l', 'm'] (pyLowerL ctext.data) = true ∧
      p.start = some ss ∧ parse_time ss = some dt ∧
      dateEqB dt ⟨2025, 10, 12, 9, 0, 0, 0⟩ = true ∧ 18 ≤ dt.hour ∧
      te.text = some raw ∧ m.title = clean_title raw ∧ m.time = fmtHM dt) :=
  ⟨rfl, load_movies_output_passes_filter ⟨2025, 10, 12, 9, 0, 0, 0⟩ 18
    constR7 () [progGood] [movieGood] rfl⟩

def prog1759 : Programme :=
  ⟨some ⟨some "Film X"⟩, some ⟨some "film"⟩,
   some "20251012175900 +0200", some "TVP1"⟩

def prog1800 : Programme :=
  ⟨some ⟨some "Film X"⟩, some ⟨some "film"⟩,
   some "20251012180000 +0200", some "TVP1"⟩

/-- C1 (code behaviour at the threshold hour): with threshold 18, the 17:59
programme is always excluded, but the programme starting exactly at 18:00
is ALSO excluded whenever the wall clock's microsecond is non-zero, because
`replace(hour=start_hour, minute=0, second=0)` does not reset
`microsecond`, making `evening` fall strictly after 18:00:00.  Only when
the clock reads microsecond 0 is the 18:00 programme included, as the
specification describes. -/
theorem filter_threshold_eval :
    load_movies_from_epg ⟨2025, 10, 12, 9, 30, 0, 1⟩ 18 constR7 ()
      [prog1759, prog1800] = .ok [] ∧
    load_movies_from_epg ⟨2025, 10, 12, 9, 30, 0, 0⟩ 18 constR7 ()
      [prog1759, prog1800]
      = .ok [⟨"Film X", "18:00", some "TVP1", 7, none, none⟩] :=
  ⟨rfl, rfl⟩

end TvGuide
